import Mathlib

/-
Verification of the Kaiterra API python client against its specification.
The definitions below are shallow embeddings of the code in
kaiterra_client/client.py and kaiterraclient/dateutil.py: pure python
functions become Lean functions, python exceptions become Except values,
and python None-or-value results become Option values.
-/

namespace Kaiterra

/- ===== Unit model: client.py lines 22-42 ===== -/

inductive Units where
  | Unknown
  | Count
  | Percent
  | DegreesCelsius
  | DegreesFahrenheit
  | MilligramsPerCubicMeter
  | MicrogramsPerCubicMeter
  | PartsPerMillion
  | PartsPerBillion
deriving DecidableEq, Repr

/-- The short string code of each enum member (the python `.value`). -/
def Units.value : Units → String
  | .Unknown => "?"
  | .Count => "x"
  | .Percent => "%"
  | .DegreesCelsius => "C"
  | .DegreesFahrenheit => "F"
  | .MilligramsPerCubicMeter => "mg/m³"
  | .MicrogramsPerCubicMeter => "µg/m³"
  | .PartsPerMillion => "ppm"
  | .PartsPerBillion => "ppb"

/-- `Units.__members__.values()` in declaration order. -/
def Units.members : List Units :=
  [.Unknown, .Count, .Percent, .DegreesCelsius, .DegreesFahrenheit,
   .MilligramsPerCubicMeter, .MicrogramsPerCubicMeter, .PartsPerMillion, .PartsPerBillion]

/-- `Units.from_str`: scans members in order and returns the first whose value
equals the argument; `none` models the ValueError raised when nothing matches. -/
def Units.from_str (s : String) : Option Units :=
  Units.members.find? (fun v => v.value = s)

inductive AQIStandard where
  | USA
  | China
  | India
deriving DecidableEq, Repr

def AQIStandard.value : AQIStandard → String
  | .USA => "us"
  | .China => "cn"
  | .India => "in"

/- ===== Sensor id validator: client.py lines 204-214 =====
The source matches sid.lower() against the anchored-at-start-only regex
  /?(lasereggs?|sensedges?)/([0-9a-f]\x7b32\x7d|[0-9a-f]\x7b8\x7d-?[0-9a-f]\x7b4\x7d-?[0-9a-f]\x7b4\x7d-?[0-9a-f]\x7b4\x7d-?[0-9a-f]\x7b12\x7d)
using re.match, which anchors at the start of the string but not at the end. -/

def isLowerHexDigit (c : Char) : Bool :=
  (('0' ≤ c) && (c ≤ '9')) || (('a' ≤ c) && (c ≤ 'f'))

/-- Consume exactly `n` lowercase hex digits from the front. -/
def takeHex : Nat → List Char → Option (List Char)
  | 0, cs => some cs
  | _ + 1, [] => none
  | n + 1, c :: cs => if isLowerHexDigit c then takeHex n cs else none

/-- The regex fragment `-?`: greedily consume one hyphen when present.  Since a
hyphen is never a hex digit, the greedy choice never needs backtracking. -/
def skipHyphen : List Char → List Char
  | [] => []
  | c :: cs => if c = '-' then cs else c :: cs

/-- Consume a literal character sequence. -/
def stripLit : List Char → List Char → Option (List Char)
  | [], cs => some cs
  | _ :: _, [] => none
  | l :: ls, c :: cs => if c = l then stripLit ls cs else none

/-- The 8-4-4-4-12 hex group alternative, each canonical hyphen independently
optional; the characters after the final group are unconstrained because the
regex is not anchored at the end. -/
def matchGroupedHex (cs : List Char) : Bool :=
  (do
    let cs ← takeHex 8 cs
    let cs ← takeHex 4 (skipHyphen cs)
    let cs ← takeHex 4 (skipHyphen cs)
    let cs ← takeHex 4 (skipHyphen cs)
    let _ ← takeHex 12 (skipHyphen cs)
    pure ()).isSome

/-- The device id alternation: 32 contiguous hex digits, or the grouped form. -/
def matchHexId (cs : List Char) : Bool :=
  (takeHex 32 cs).isSome || matchGroupedHex cs

/-- The fragment `s?/` after the literal device family name: the optional `s`
is taken greedily and, by regex backtracking, the match succeeds exactly when
the remainder starts with `s/` or `/`. -/
def slashAfterOptS : List Char → Option (List Char)
  | 's' :: '/' :: cs => some cs
  | '/' :: cs => some cs
  | _ => none

/-- The regex fragment `/?`: one leading slash is stripped; when the first
character is not a slash the optional group matches the empty string, the only
choice that can succeed because both device family names start with a letter. -/
def stripLeadSlash : List Char → List Char
  | [] => []
  | c :: cs => if c = '/' then cs else c :: cs

/-- The alternation `(lasereggs?|sensedges?)/`; the two branches start with
distinct characters so at most one literal can apply. -/
def matchDeviceSlash (cs : List Char) : Option (List Char) :=
  match stripLit "laseregg".data cs with
  | some rest => slashAfterOptS rest
  | none =>
    match stripLit "sensedge".data cs with
    | some rest => slashAfterOptS rest
    | none => none

/-- `KaiterraAPIClient._is_valid_sensor_id`, client.py lines 204-214.
Lowercases the input, strips at most one leading slash, and matches the device
family, a slash, and the hex device id; anything may follow the match. -/
def is_valid_sensor_id (sid : String) : Bool :=
  match matchDeviceSlash (stripLeadSlash (sid.data.map Char.toLower)) with
  | some rest => matchHexId rest
  | none => false

/- ===== Client configuration and the batch request builder =====
client.py lines 64-87 (__init__) and 98-141 (get_latest_sensor_readings up to
the network call). -/

/-- Python exceptions raised by the embedded code paths. -/
inductive PyErr where
  | valueError (msg : String) : PyErr
  | keyError (k : String) : PyErr
  | typeError : PyErr
  | jsonDecodeError : PyErr
deriving DecidableEq, Repr

/-- The instance state stored by `KaiterraAPIClient.__init__`.  Note that the
constructor parameter `aqi_standard` is accepted but never stored: the only
attributes assigned are the base url, the two credentials and the preferred
unit list (plus the HTTP session, which is outside this embedding). -/
structure Client where
  base_url : String
  api_key : Option String
  hmac_secret : Option String
  preferred_units : List Units
deriving DecidableEq, Repr

/-- `base_url.rstrip('/')`: remove every trailing slash. -/
def rstripSlash (s : String) : String :=
  ⟨(s.data.reverse.dropWhile (fun c => c = '/')).reverse⟩

/-- `KaiterraAPIClient.__init__`, client.py lines 64-87.  The `aqi_standard`
argument is discarded, exactly as in the source, which never assigns it to an
attribute; `preferred_units = none` models passing python None. -/
def client_init (base_url : String) (api_key : Option String)
    (hmac_secret : Option String) (aqi_standard : Option AQIStandard)
    (preferred_units : Option (List Units)) : Except PyErr Client :=
  let _ := aqi_standard
  let pu := match preferred_units with
    | none => []
    | some us => us
  if api_key = none && hmac_secret = none then
    .error (.valueError "Must specify one of api_key or hmac_secret")
  else if api_key.isSome && hmac_secret.isSome then
    .error (.valueError "Must specify only one of api_key or hmac_secret")
  else
    .ok { base_url := rstripSlash base_url, api_key := api_key,
          hmac_secret := hmac_secret, preferred_units := pu }

/-- One element of the JSON body POSTed to /v1/batch. -/
structure SubRequest where
  method : String
  relative_url : String
deriving DecidableEq, Repr

/-- The `sensor_ids` argument: either a bare string or a genuine list. -/
inductive SensorIdsArg where
  | str (s : String) : SensorIdsArg
  | list (ids : List String) : SensorIdsArg
deriving DecidableEq, Repr

/-- The per-id loop of get_latest_sensor_readings, client.py lines 134-141:
validate each id in order, raising on the first invalid one, and append one
sub-request per valid id. -/
def buildSubRequests (get_params : List String) : List String → Except PyErr (List SubRequest)
  | [] => .ok []
  | sid :: rest =>
    if is_valid_sensor_id sid then
      match buildSubRequests get_params rest with
      | .ok rs =>
        .ok ({ method := "GET",
               relative_url := sid ++ "?" ++ String.intercalate "&" get_params } :: rs)
      | .error e => .error e
    else
      .error (.valueError ("sensor ID " ++ sid ++ " is invalid"))

/-- The pre-network phase of `get_latest_sensor_readings`, client.py lines
120-141: reject a bare string, reject more than 100 ids, build the query
parameter list (format=series_major followed by one units=code per preferred
unit; the source appends nothing else), then build one sub-request per id.
An `.error` result means the call raised before any network activity. -/
def get_latest_sensor_readings_payload (c : Client) (sensor_ids : SensorIdsArg) :
    Except PyErr (List SubRequest) :=
  match sensor_ids with
  | .str _ => .error (.valueError "sensor_ids must be a list of strings")
  | .list ids =>
    if ids.length > 100 then
      .error (.valueError "sensor_ids is too long; max length is 100")
    else
      let get_params := "format=series_major" :: c.preferred_units.map (fun u => "units=" ++ u.value)
      buildSubRequests get_params ids

/- ===== Date parser: kaiterraclient/dateutil.py =====
parse_rfc3339 tries datetime.strptime with format "%Y-%m-%dT%H:%M:%SZ", and on
ValueError retries with "%Y-%m-%dT%H:%M:%S.%fZ"; either way the result gets
tzinfo=timezone.utc.  CPython strptime compiles the format to a regex with
IGNORECASE, using these field patterns:
  %Y  four digits
  %m  1[0-2]|0[1-9]|[1-9]
  %d  3[0-1]|[1-2]d|0[1-9]|[1-9]     (d stands for any digit)
  %H  2[0-3]|[0-1]d|d
  %M  [0-5]d|d
  %S  6[0-1]|[0-5]d|d
  %f  from one to six digits
and requires the whole input to be consumed.  The matched values are then fed
to the datetime constructor, which raises ValueError unless the year is at
least 1, the day fits the month and the seconds are at most 59.  In every
field below, the two-digit branch is tried first and the one-digit fallback is
exact because each field is followed by a non-digit separator, so regex
backtracking can never revive an alternative that the greedy choice killed. -/

structure PyDateTime where
  year : Nat
  month : Nat
  day : Nat
  hour : Nat
  minute : Nat
  second : Nat
  microsecond : Nat
  /-- true when tzinfo is timezone.utc -/
  utc : Bool
deriving DecidableEq, Repr

def digitVal (c : Char) : Nat := c.toNat - '0'.toNat

/-- `%Y`: exactly four digits. -/
def readY : List Char → Option (Nat × List Char)
  | a :: b :: c :: d :: rest =>
    if a.isDigit && b.isDigit && c.isDigit && d.isDigit then
      some (1000 * digitVal a + 100 * digitVal b + 10 * digitVal c + digitVal d, rest)
    else none
  | _ => none

/-- The shared shape of the strptime two-or-one-digit field patterns: a
two-character branch tried first, then a one-character fallback branch.  The
greedy preference is exact because in both formats every such field is
followed by a non-digit separator, so when the two-digit branch matches but
the separator check after it fails, the one-digit branch is also doomed: the
separator position would hold the second digit. -/
def read2or1 (twoOk : Char → Char → Bool) (oneOk : Char → Bool) :
    List Char → Option (Nat × List Char)
  | a :: b :: rest =>
    if twoOk a b then some (10 * digitVal a + digitVal b, rest)
    else if oneOk a then some (digitVal a, b :: rest)
    else none
  | [a] => if oneOk a then some (digitVal a, []) else none
  | [] => none

/-- `%m`: 1[0-2]|0[1-9]|[1-9]. -/
def readMonth : List Char → Option (Nat × List Char) :=
  read2or1 (fun a b => (a = '1' && '0' ≤ b && b ≤ '2') || (a = '0' && '1' ≤ b && b ≤ '9'))
    (fun a => '1' ≤ a && a ≤ '9')

/-- `%d`: 3[0-1]|[1-2]\d|0[1-9]|[1-9]. -/
def readDay : List Char → Option (Nat × List Char) :=
  read2or1 (fun a b => (a = '3' && '0' ≤ b && b ≤ '1') || ('1' ≤ a && a ≤ '2' && b.isDigit)
      || (a = '0' && '1' ≤ b && b ≤ '9'))
    (fun a => '1' ≤ a && a ≤ '9')

/-- `%H`: 2[0-3]|[0-1]\d|\d. -/
def readHour : List Char → Option (Nat × List Char) :=
  read2or1 (fun a b => (a = '2' && '0' ≤ b && b ≤ '3') || ('0' ≤ a && a ≤ '1' && b.isDigit))
    (fun a => a.isDigit)

/-- `%M`: [0-5]\d|\d. -/
def readMinute : List Char → Option (Nat × List Char) :=
  read2or1 (fun a b => '0' ≤ a && a ≤ '5' && b.isDigit) (fun a => a.isDigit)

/-- `%S`: 6[0-1]|[0-5]\d|\d. -/
def readSecond : List Char → Option (Nat × List Char) :=
  read2or1 (fun a b => (a = '6' && '0' ≤ b && b ≤ '1') || ('0' ≤ a && a ≤ '5' && b.isDigit))
    (fun a => a.isDigit)

/-- A literal character of the format string that IGNORECASE does not affect. -/
def litChar (l : Char) : List Char → Option (List Char)
  | c :: cs => if c = l then some cs else none
  | [] => none

/-- A letter literal of the format string, matched case-insensitively because
strptime compiles its regex with IGNORECASE; `l` is given in lowercase. -/
def litCharCI (l : Char) : List Char → Option (List Char)
  | c :: cs => if c.toLower = l then some cs else none
  | [] => none

/-- `%f`: one to six digits, right-padded with zeros to microseconds.  Taking
every leading digit is exact: the following literal is Z, not a digit, so any
parse that stopped earlier inside a digit run would fail there. -/
def readFrac (cs : List Char) : Option (Nat × List Char) :=
  let ds := cs.takeWhile Char.isDigit
  if ds.length = 0 || ds.length > 6 then none
  else some ((ds.foldl (fun acc c => 10 * acc + digitVal c) 0) * 10 ^ (6 - ds.length),
             cs.drop ds.length)

def isLeapYear (y : Nat) : Bool :=
  y % 4 = 0 && (y % 100 ≠ 0 || y % 400 = 0)

def daysInMonth (y m : Nat) : Nat :=
  if m = 2 then (if isLeapYear y then 29 else 28)
  else if m = 4 || m = 6 || m = 9 || m = 11 then 30
  else 31

/-- The datetime constructor checks performed after the regex match; strptime
field patterns can produce a year 0, an out-of-calendar day or a leap second,
all of which make datetime raise ValueError, caught by parse_rfc3339. -/
def mkPyDateTime (y mo d h mi s us : Nat) : Option PyDateTime :=
  if 1 ≤ y && y ≤ 9999 && 1 ≤ mo && mo ≤ 12 && 1 ≤ d && d ≤ daysInMonth y mo
      && h ≤ 23 && mi ≤ 59 && s ≤ 59 && us ≤ 999999 then
    some ⟨y, mo, d, h, mi, s, us, true⟩
  else none

/-- `datetime.strptime(ts, "%Y-%m-%dT%H:%M:%SZ").replace(tzinfo=timezone.utc)`:
`none` models the ValueError. -/
def strptimeNoFrac (cs : List Char) : Option PyDateTime := do
  let (y, cs) ← readY cs
  let cs ← litChar '-' cs
  let (mo, cs) ← readMonth cs
  let cs ← litChar '-' cs
  let (d, cs) ← readDay cs
  let cs ← litCharCI 't' cs
  let (h, cs) ← readHour cs
  let cs ← litChar ':' cs
  let (mi, cs) ← readMinute cs
  let cs ← litChar ':' cs
  let (s, cs) ← readSecond cs
  let cs ← litCharCI 'z' cs
  match cs with
  | [] => mkPyDateTime y mo d h mi s 0
  | _ => none

/-- `datetime.strptime(ts, "%Y-%m-%dT%H:%M:%S.%fZ").replace(tzinfo=timezone.utc)`. -/
def strptimeWithFrac (cs : List Char) : Option PyDateTime := do
  let (y, cs) ← readY cs
  let cs ← litChar '-' cs
  let (mo, cs) ← readMonth cs
  let cs ← litChar '-' cs
  let (d, cs) ← readDay cs
  let cs ← litCharCI 't' cs
  let (h, cs) ← readHour cs
  let cs ← litChar ':' cs
  let (mi, cs) ← readMinute cs
  let cs ← litChar ':' cs
  let (s, cs) ← readSecond cs
  let cs ← litChar '.' cs
  let (us, cs) ← readFrac cs
  let cs ← litCharCI 'z' cs
  match cs with
  | [] => mkPyDateTime y mo d h mi s us
  | _ => none

/-- `parse_rfc3339`, dateutil.py lines 3-16: try the plain format, and on
failure the fractional format; `none` models the propagated ValueError. -/
def parse_rfc3339 (ts : String) : Option PyDateTime :=
  match strptimeNoFrac ts.data with
  | some d => some d
  | none => strptimeWithFrac ts.data

/- ===== JSON values and json.loads =====
The batch endpoint returns a JSON array whose elements carry a `code` and a
JSON-encoded `body` string; _parse_series_major_single_points decodes the body
with json.loads.  JSON numbers are modelled as exact rationals (python floats
are irrelevant to every claim below, which never computes with point values). -/

inductive JValue where
  | null : JValue
  | bool (b : Bool) : JValue
  | num (q : ℚ) : JValue
  | str (s : String) : JValue
  | arr (elems : List JValue) : JValue
  | obj (fields : List (String × JValue)) : JValue
deriving Repr

/-- Dictionary lookup.  Objects produced by the json.loads embedding below
have unique keys, so first-match lookup agrees with python dict lookup. -/
def jlookup (fields : List (String × JValue)) (k : String) : Option JValue :=
  (fields.find? (fun p => p.1 = k)).map (fun p => p.2)

def JValue.get? : JValue → String → Option JValue
  | .obj fields, k => jlookup fields k
  | _, _ => none

def JValue.isObjB : JValue → Bool
  | .obj _ => true
  | _ => false

/-- Python truthiness of a decoded JSON value. -/
def JValue.truthy : JValue → Bool
  | .null => false
  | .bool b => b
  | .num q => q ≠ 0
  | .str s => s.length ≠ 0
  | .arr l => !l.isEmpty
  | .obj l => !l.isEmpty

/-- Insertion with python dict semantics: an existing key keeps its position
and gets the new value, a new key is appended. -/
def objInsert (fields : List (String × JValue)) (k : String) (v : JValue) :
    List (String × JValue) :=
  if fields.any (fun p => p.1 = k) then
    fields.map (fun p => if p.1 = k then (k, v) else p)
  else
    fields ++ [(k, v)]

def isJsonWs (c : Char) : Bool :=
  c = ' ' || c = '\t' || c = '\n' || c = '\r'

def skipWs (cs : List Char) : List Char :=
  cs.dropWhile isJsonWs

def hexEscDigit (c : Char) : Option Nat :=
  let n := c.toNat
  if 48 ≤ n && n ≤ 57 then some (n - 48)
  else if 97 ≤ n && n ≤ 102 then some (n - 87)
  else if 65 ≤ n && n ≤ 70 then some (n - 55)
  else none

/-- The body of a JSON string after the opening quote: returns the decoded
characters and the rest after the closing quote.  Escapes are decoded as by
json.loads; a lone \u escape becomes the corresponding code point (surrogate
pairing of two adjacent escapes is not modelled; no claim uses it).  Raw
control characters below 0x20 are rejected as in the strict default mode. -/
def jstring : List Char → Option (List Char × List Char)
  | [] => none
  | '"' :: cs => some ([], cs)
  | '\\' :: e :: cs =>
    match e with
    | '"' => (jstring cs).map (fun p => ('"' :: p.1, p.2))
    | '\\' => (jstring cs).map (fun p => ('\\' :: p.1, p.2))
    | '/' => (jstring cs).map (fun p => ('/' :: p.1, p.2))
    | 'b' => (jstring cs).map (fun p => (Char.ofNat 8 :: p.1, p.2))
    | 'f' => (jstring cs).map (fun p => (Char.ofNat 12 :: p.1, p.2))
    | 'n' => (jstring cs).map (fun p => ('\n' :: p.1, p.2))
    | 'r' => (jstring cs).map (fun p => (Char.ofNat 13 :: p.1, p.2))
    | 't' => (jstring cs).map (fun p => ('\t' :: p.1, p.2))
    | 'u' =>
      match cs with
      | h1 :: h2 :: h3 :: h4 :: cs =>
        match hexEscDigit h1, hexEscDigit h2, hexEscDigit h3, hexEscDigit h4 with
        | some a, some b, some c, some d =>
          (jstring cs).map (fun p => (Char.ofNat (((a * 16 + b) * 16 + c) * 16 + d) :: p.1, p.2))
        | _, _, _, _ => none
      | _ => none
    | _ => none
  | c :: cs =>
    if c.toNat < 32 then none
    else (jstring cs).map (fun p => (c :: p.1, p.2))

/-- Digits of the integer part: 0 alone, or a nonzero digit followed by more
digits, per the JSON number grammar. -/
def jintDigits : List Char → Option (List Char × List Char)
  | '0' :: cs => some (['0'], cs)
  | c :: cs =>
    if '1' ≤ c && c ≤ '9' then
      some (c :: cs.takeWhile Char.isDigit, cs.dropWhile Char.isDigit)
    else none
  | [] => none

def digitsToNat (ds : List Char) : Nat :=
  ds.foldl (fun acc c => 10 * acc + digitVal c) 0

/-- A JSON number starting at the current position: optional minus, integer
part, optional fraction, optional exponent, decoded as an exact rational. -/
def jnumber (cs : List Char) : Option (ℚ × List Char) :=
  let (neg, cs1) := match cs with
    | '-' :: rest => (true, rest)
    | _ => (false, cs)
  match jintDigits cs1 with
  | none => none
  | some (ids, cs2) =>
    let (fds, cs3) := match cs2 with
      | '.' :: rest =>
        let ds := rest.takeWhile Char.isDigit
        if ds.isEmpty then (([] : List Char), '.' :: rest)
        else (ds, rest.dropWhile Char.isDigit)
      | _ => ([], cs2)
    let mantissa : ℚ := (digitsToNat ids : ℚ) + (digitsToNat fds : ℚ) / (10 : ℚ) ^ fds.length
    let signed : ℚ := if neg then -mantissa else mantissa
    match cs3 with
    | 'e' :: rest => withExp signed rest
    | 'E' :: rest => withExp signed rest
    | _ => some (signed, cs3)
where
  /-- exponent sign and digits; an `e` with no digits is a parse error, as in
  python json. -/
  withExp (signed : ℚ) (rest : List Char) : Option (ℚ × List Char) :=
    let (eneg, rest1) := match rest with
      | '+' :: r => (false, r)
      | '-' :: r => (true, r)
      | _ => (false, rest)
    let ds := rest1.takeWhile Char.isDigit
    if ds.isEmpty then none
    else
      let e := digitsToNat ds
      some (if eneg then signed / (10 : ℚ) ^ e else signed * (10 : ℚ) ^ e,
            rest1.dropWhile Char.isDigit)

mutual

/-- One JSON value starting at the current position (whitespace already
skipped); fuel bounds the nesting recursion. -/
def jvalue : Nat → List Char → Option (JValue × List Char)
  | 0, _ => none
  | _ + 1, [] => none
  | fuel + 1, c :: cs =>
    match c with
    | '{' => jmembers fuel [] true (skipWs cs)
    | '[' => jelems fuel [] true (skipWs cs)
    | '"' => (jstring cs).map (fun p => (.str ⟨p.1⟩, p.2))
    | 't' => (stripLit "rue".data cs).map (fun rest => (.bool true, rest))
    | 'f' => (stripLit "alse".data cs).map (fun rest => (.bool false, rest))
    | 'n' => (stripLit "ull".data cs).map (fun rest => (.null, rest))
    | _ => (jnumber (c :: cs)).map (fun p => (.num p.1, p.2))

/-- Object members after the opening brace, whitespace skipped; `first` is
true when no member has been read yet.  Duplicate keys collapse with python
dict insertion semantics. -/
def jmembers : Nat → List (String × JValue) → Bool → List Char → Option (JValue × List Char)
  | _, acc, first, '}' :: cs =>
    if first then some (.obj acc, cs) else none
  | 0, _, _, _ => none
  | fuel + 1, acc, _, '"' :: cs =>
    match jstring cs with
    | none => none
    | some (kcs, cs) =>
      match skipWs cs with
      | ':' :: cs =>
        match jvalue fuel (skipWs cs) with
        | none => none
        | some (v, cs) =>
          let acc := objInsert acc ⟨kcs⟩ v
          match skipWs cs with
          | ',' :: cs =>
            match skipWs cs with
            | '"' :: cs2 => jmembers fuel acc false ('"' :: cs2)
            | _ => none
          | '}' :: cs => some (.obj acc, cs)
          | _ => none
      | _ => none
  | _, _, _, _ => none

/-- Array elements after the opening bracket, whitespace skipped. -/
def jelems : Nat → List JValue → Bool → List Char → Option (JValue × List Char)
  | _, acc, first, ']' :: cs =>
    if first then some (.arr acc.reverse, cs) else none
  | 0, _, _, _ => none
  | fuel + 1, acc, _, cs =>
    match jvalue fuel cs with
    | none => none
    | some (v, cs) =>
      match skipWs cs with
      | ',' :: cs => jelems fuel (v :: acc) false (skipWs cs)
      | ']' :: cs => some (.arr (v :: acc).reverse, cs)
      | _ => none

end

/-- `json.loads`: decode one value, allowing surrounding whitespace and
requiring the whole input to be consumed; `none` models JSONDecodeError. -/
def json_loads (s : String) : Option JValue :=
  match jvalue (s.length + 1) (skipWs s.data) with
  | some (v, rest) => if skipWs rest = [] then some v else none
  | none => none

/- ===== Response normalizer: client.py lines 150-183 ===== -/

/-- A value of the point dictionary returned to the caller: either a decoded
JSON value copied through, or the datetime stored into the ts slot. -/
inductive PtVal where
  | jv (v : JValue) : PtVal
  | dt (d : PyDateTime) : PtVal
deriving Repr

/-- The point dictionary placed in the result: the decoded point object with
its ts entry overwritten by the parsed datetime. -/
abbrev PointObj := List (String × PtVal)

/-- The per-parameter dictionary built at client.py lines 174-179: units and
points always, source only when the raw entry carries one. -/
structure Reading where
  units : Units
  points : List PointObj
  source : Option JValue
deriving Repr

/-- Keys of the parsed mapping are the raw `param` values; python accepts any
hashable key, and its equality identifies True with 1 and False with 0. -/
def keyEq : JValue → JValue → Bool
  | .null, .null => true
  | .bool a, .bool b => a = b
  | .num a, .num b => a = b
  | .str a, .str b => a = b
  | .bool a, .num b => (if a then (1 : ℚ) else 0) = b
  | .num a, .bool b => a = (if b then (1 : ℚ) else 0)
  | _, _ => false

/-- The accumulated `parsed` dictionary, insertion ordered. -/
abbrev Snapshot := List (JValue × Reading)

/-- `parsed[key] = reading` with python dict semantics. -/
def snapInsert (snap : Snapshot) (k : JValue) (v : Reading) : Snapshot :=
  if snap.any (fun p => keyEq p.1 k) then
    snap.map (fun p => if keyEq p.1 k then (p.1, v) else p)
  else
    snap ++ [(k, v)]

/-- `response.get('code', 0)` as used in the two comparisons at line 156: a
missing key reads as 0, numbers read as themselves, booleans compare as their
int value; any other value would make the python comparison raise TypeError. -/
def getStatusCode (fields : List (String × JValue)) : Except PyErr ℚ :=
  match jlookup fields "code" with
  | none => .ok 0
  | some (.num q) => .ok q
  | some (.bool b) => .ok (if b then 1 else 0)
  | some _ => .error .typeError

/-- `params = body.get('latest') or-else body.get('info.aqi')`: lines 160-164.
Returns the first of the two fields that is present and truthy, or none when
both are missing or falsy, in which case the function returns None. -/
def pickParams (bodyFields : List (String × JValue)) : Option JValue :=
  match jlookup bodyFields "latest" with
  | some v =>
    if v.truthy then some v
    else
      match jlookup bodyFields "info.aqi" with
      | some w => if w.truthy then some w else none
      | none => none
  | none =>
    match jlookup bodyFields "info.aqi" with
    | some w => if w.truthy then some w else none
    | none => none

/-- `len(x)` for the values on which python len() is defined; sized python
values here are strings, lists and dicts, anything else raises TypeError. -/
def pyLen : JValue → Except PyErr Nat
  | .arr l => .ok l.length
  | .str s => .ok s.length
  | .obj fs => .ok fs.length
  | _ => .error .typeError

/-- The body of `for param in params` at client.py lines 167-181, processing
parameter entries in order and accumulating the parsed dictionary.  Steps per
entry, in source order: read param["points"], skip the entry when its length
is zero, take points[0], read and parse point["ts"] (ValueError from the date
parser propagates), overwrite the ts slot, build the new entry from
Units.from_str(param["units"]) with the point list, copy source when present, and
store under key param["param"].  A non-list points value and a non-dict point
make python raise on indexing or item access; both are collapsed to a
typeError here, as are container keys, which are unhashable in python. -/
def processParams : List JValue → Snapshot → Except PyErr Snapshot
  | [], acc => .ok acc
  | param :: rest, acc =>
    match param with
    | .obj pf =>
      match jlookup pf "points" with
      | none => .error (.keyError "points")
      | some pts =>
        match pyLen pts with
        | .error e => .error e
        | .ok n =>
          if n = 0 then processParams rest acc
          else
            match pts with
            | .arr (point :: _) =>
              match point with
              | .obj ptf =>
                match jlookup ptf "ts" with
                | none => .error (.keyError "ts")
                | some tsv =>
                  match tsv with
                  | .str tss =>
                    match parse_rfc3339 tss with
                    | none => .error (.valueError "time data does not match format")
                    | some dtv =>
                      let point2 : PointObj :=
                        ptf.map (fun p => if p.1 = "ts" then (p.1, PtVal.dt dtv) else (p.1, PtVal.jv p.2))
                      match jlookup pf "units" with
                      | none => .error (.keyError "units")
                      | some uv =>
                        match uv with
                        | .str us =>
                          match Units.from_str us with
                          | none => .error (.valueError "not a known value for Units")
                          | some u =>
                            let reading : Reading :=
                              { units := u, points := [point2], source := jlookup pf "source" }
                            match jlookup pf "param" with
                            | none => .error (.keyError "param")
                            | some key =>
                              match key with
                              | .arr _ => .error .typeError
                              | .obj _ => .error .typeError
                              | _ => processParams rest (snapInsert acc key reading)
                        | _ => .error (.valueError "not a known value for Units")
                  | _ => .error .typeError
              | _ => .error .typeError
            | _ => .error .typeError
    | _ => .error .typeError

/-- `KaiterraAPIClient._parse_series_major_single_points`, client.py lines
152-183.  `.ok none` is the python `return None`; `.error` is a raised
exception.  A response that is not a key/value mapping yields None; a status
code below 200 or at least 400 yields None; then the body string is decoded,
the latest field (or, when that is missing or falsy, the info.aqi field) is
selected, both absent-or-falsy yields None; a truthy non-list params value
always ends in a python exception when iterated here, collapsed to typeError. -/
def parse_series_major_single_points (response : JValue) : Except PyErr (Option Snapshot) :=
  match response with
  | .obj fields =>
    match getStatusCode fields with
    | .error e => .error e
    | .ok code =>
      if code < 200 ∨ 400 ≤ code then .ok none
      else
        match jlookup fields "body" with
        | none => .error (.keyError "body")
        | some bodyv =>
          match bodyv with
          | .str bodyStr =>
            match json_loads bodyStr with
            | none => .error .jsonDecodeError
            | some body =>
              match body with
              | .obj bodyFields =>
                match pickParams bodyFields with
                | none => .ok none
                | some params =>
                  match params with
                  | .arr l =>
                    match processParams l [] with
                    | .ok snap => .ok (some snap)
                    | .error e => .error e
                  | _ => .error .typeError
              | _ => .error .typeError
          | _ => .error .typeError
  | _ => .ok none

/-- Line 150: the list comprehension over the decoded batch response; the
first raised exception aborts the whole call. -/
def parse_all : List JValue → Except PyErr (List (Option Snapshot))
  | [] => .ok []
  | r :: rs =>
    match parse_series_major_single_points r with
    | .error e => .error e
    | .ok o =>
      match parse_all rs with
      | .error e => .error e
      | .ok os => .ok (o :: os)

/-- The status code as read by the two comparisons, when the comparison is
defined: `some q` when get("code", 0) yields a number (or a bool, which python
compares as its int value), `none` when the response is not a mapping or the
stored code is a value a python order comparison would raise on. -/
def statusCodeOf : JValue → Option ℚ
  | .obj fields =>
    match getStatusCode fields with
    | .ok q => some q
    | .error _ => none
  | _ => none

/- ===== Shared concrete sample data for witnesses ===== -/

/-- The client built in test_sensors.py setUp: api key auth, AQI standard USA,
preferred units [DegreesCelsius].  The aqi standard does not appear because
__init__ drops it. -/
def testClient : Client :=
  { base_url := "https://api.kaiterra.cn", api_key := some "abc123",
    hmac_secret := none, preferred_units := [.DegreesCelsius] }

def testLaserEggId : String := "/lasereggs/00000000-0001-0001-0000-00007e57c0de"

def testSensedgeId : String := "/sensedges/00000000-0031-0001-0000-00007e57c0de"

/- ===== Claim theorems ===== -/

/-- C7: for every Unit member, from_str maps its code back to the member, and
from_str fails exactly on the strings that are no member code, never silently
coercing. -/
theorem claim_C7_units_round_trip :
    (∀ u : Units, Units.from_str u.value = some u) ∧
    (∀ s : String, Units.from_str s = none ↔ ∀ u : Units, u.value ≠ s) := by
  constructor
  · intro u
    cases u <;> rfl
  · intro s
    rw [Units.from_str, List.find?_eq_none]
    constructor
    · intro h u
      have hm : u ∈ Units.members := by cases u <;> simp [Units.members]
      simpa using h u hm
    · intro h u _
      simpa using h u

/-- C7 witness: the round trip and the failure case at concrete codes. -/
theorem claim_C7_units_round_trip_witness :
    Units.from_str "µg/m³" = some Units.MicrogramsPerCubicMeter ∧
    Units.from_str "ug/m3" = none := by
  refine ⟨claim_C7_units_round_trip.1 Units.MicrogramsPerCubicMeter, ?_⟩
  exact (claim_C7_units_round_trip.2 "ug/m3").2 (by intro u; cases u <;> decide)

/-- C1: evaluating the batch builder at the exact configuration and sensor ids
of the repository test test_load: the constructor stores no AQI standard even
though one is configured, and the built relative urls carry format and units
parameters but no aqi parameter, while the test asserts the urls contain
`format=series_major&aqi=us&units=C`. -/
theorem claim_C1_aqi_param_never_sent :
    client_init "https://api.kaiterra.cn" (some "abc123") none
        (some AQIStandard.USA) (some [Units.DegreesCelsius]) = .ok testClient ∧
    get_latest_sensor_readings_payload testClient (.list [testLaserEggId, testSensedgeId]) =
      .ok [{ method := "GET", relative_url := testLaserEggId ++ "?format=series_major&units=C" },
           { method := "GET", relative_url := testSensedgeId ++ "?format=series_major&units=C" }] ∧
    (testLaserEggId ++ "?format=series_major&units=C" ≠
      testLaserEggId ++ "?format=series_major&aqi=us&units=C") := by
  refine ⟨rfl, rfl, by decide⟩

/-- C4 counterexample: the empty id list is not rejected; the builder returns
an empty payload and the call proceeds to the network, while the claim says
every empty list is rejected with an input error before any network activity. -/
theorem claim_C4_counterexample_empty_list_accepted :
    get_latest_sensor_readings_payload testClient (.list []) = .ok [] := rfl

/-- C4 amended: only the upper bound is enforced: every list longer than 100
ids raises the oversize input error before any network activity, while the
empty list passes the checks and yields an empty payload. -/
theorem claim_C4_batch_size_upper_bound_only :
    (∀ (c : Client) (ids : List String), 100 < ids.length →
      get_latest_sensor_readings_payload c (.list ids) =
        .error (.valueError "sensor_ids is too long; max length is 100")) ∧
    (∀ c : Client, get_latest_sensor_readings_payload c (.list []) = .ok []) := by
  constructor
  · intro c ids h
    simp only [get_latest_sensor_readings_payload, gt_iff_lt, if_pos h]
  · intro c
    rfl

/-- C4 witness: a list of 101 ids is rejected with the oversize error. -/
theorem claim_C4_batch_size_upper_bound_only_witness :
    100 < (List.replicate 101 "a").length ∧
    get_latest_sensor_readings_payload testClient (.list (List.replicate 101 "a")) =
      .error (.valueError "sensor_ids is too long; max length is 100") := by
  refine ⟨by simp, claim_C4_batch_size_upper_bound_only.1 testClient _ (by simp)⟩

/-- Helper for C8: the per-id loop raises on the first invalid id, naming it,
whatever follows it. -/
theorem buildSubRequests_first_invalid (gp : List String) :
    ∀ (pre : List String) (sid : String) (post : List String),
      (∀ x ∈ pre, is_valid_sensor_id x = true) →
      is_valid_sensor_id sid = false →
      buildSubRequests gp (pre ++ sid :: post) =
        .error (.valueError ("sensor ID " ++ sid ++ " is invalid")) := by
  intro pre
  induction pre with
  | nil =>
    intro sid post _ hbad
    simp [buildSubRequests, hbad]
  | cons p pre ih =>
    intro sid post hpre hbad
    have hp : is_valid_sensor_id p = true := hpre p (by simp)
    have hrest := ih sid post (fun x hx => hpre x (by simp [hx])) hbad
    simp [buildSubRequests, hp, hrest]

/-- C8: a bare string argument raises the wrong-shape input error, and a list
containing an invalid id raises an input error naming the first invalid id,
whatever ids follow it; both errors occur in the phase before the network
request is issued. -/
theorem claim_C8_input_validation :
    (∀ (c : Client) (s : String),
      get_latest_sensor_readings_payload c (.str s) =
        .error (.valueError "sensor_ids must be a list of strings")) ∧
    (∀ (c : Client) (pre : List String) (sid : String) (post : List String),
      (pre ++ sid :: post).length ≤ 100 →
      (∀ x ∈ pre, is_valid_sensor_id x = true) →
      is_valid_sensor_id sid = false →
      get_latest_sensor_readings_payload c (.list (pre ++ sid :: post)) =
        .error (.valueError ("sensor ID " ++ sid ++ " is invalid"))) := by
  constructor
  · intro c s
    rfl
  · intro c pre sid post hlen hpre hbad
    have hnot : ¬ (pre ++ sid :: post).length > 100 := by omega
    simp only [get_latest_sensor_readings_payload, gt_iff_lt, if_neg hnot]
    exact buildSubRequests_first_invalid _ pre sid post hpre hbad

/-- C8 witness: a bare string is rejected, and in a list whose second element
is malformed the error names that element. -/
theorem claim_C8_input_validation_witness :
    get_latest_sensor_readings_payload testClient (.str testLaserEggId) =
      .error (.valueError "sensor_ids must be a list of strings") ∧
    get_latest_sensor_readings_payload testClient
        (.list ([testLaserEggId] ++ "thing" :: [testSensedgeId])) =
      .error (.valueError ("sensor ID " ++ "thing" ++ " is invalid")) := by
  refine ⟨claim_C8_input_validation.1 testClient testLaserEggId, ?_⟩
  exact claim_C8_input_validation.2 testClient [testLaserEggId] "thing" [testSensedgeId]
    (by decide) (by decide) (by decide)

/-- C10: a key/value response record with no code key normalizes to an absent
element whatever its other fields hold, because get("code", 0) reads 0, which
is below 200. -/
theorem claim_C10_missing_code_is_absent :
    ∀ fields : List (String × JValue), jlookup fields "code" = none →
      parse_series_major_single_points (.obj fields) = .ok none := by
  intro fields h
  simp only [parse_series_major_single_points, getStatusCode, h]
  rw [if_pos]
  exact Or.inl (by norm_num)

/-- C10 witness: a record carrying only a body and no code yields None. -/
theorem claim_C10_missing_code_is_absent_witness :
    parse_series_major_single_points
        (.obj [("body", .str "\x7b\"latest\":[]\x7d")]) = .ok none := by
  exact claim_C10_missing_code_is_absent [("body", .str "\x7b\"latest\":[]\x7d")] rfl

/-- Helper for C5: a response that is not a key/value mapping normalizes to
None. -/
theorem parse_one_of_not_mapping (r : JValue) (h : r.isObjB = false) :
    parse_series_major_single_points r = .ok none := by
  cases r <;> first
    | rfl
    | simp [JValue.isObjB] at h

/-- Helper for C5: a mapping whose code reads below 200 or at least 400
normalizes to None. -/
theorem parse_one_of_bad_code (fields : List (String × JValue)) (q : ℚ)
    (hq : getStatusCode fields = .ok q) (hbad : q < 200 ∨ 400 ≤ q) :
    parse_series_major_single_points (.obj fields) = .ok none := by
  simp only [parse_series_major_single_points, hq, if_pos hbad]

/-- Helper for C5: the comprehension preserves length and position, and the
element functions line up pointwise. -/
theorem parse_all_ok_pointwise :
    ∀ (rs : List JValue) (out : List (Option Snapshot)), parse_all rs = .ok out →
      out.length = rs.length ∧
      ∀ (i : Nat) (h1 : i < rs.length) (h2 : i < out.length),
        parse_series_major_single_points (rs.get ⟨i, h1⟩) = .ok (out.get ⟨i, h2⟩) := by
  intro rs
  induction rs with
  | nil =>
    intro out h
    simp only [parse_all] at h
    cases h
    exact ⟨rfl, fun i h1 _ => absurd h1 (by simp)⟩
  | cons r rs ih =>
    intro out h
    simp only [parse_all] at h
    cases hr : parse_series_major_single_points r with
    | error e => rw [hr] at h; cases h
    | ok o =>
      rw [hr] at h
      cases hrs : parse_all rs with
      | error e => rw [hrs] at h; cases h
      | ok os =>
        rw [hrs] at h
        cases h
        obtain ⟨hlen, hpt⟩ := ih os hrs
        refine ⟨by simpa using hlen, ?_⟩
        intro i h1 h2
        cases i with
        | zero => simpa using hr
        | succ j =>
          have hj1 : j < rs.length := by simpa using h1
          have hj2 : j < os.length := by simpa using h2
          simpa using hpt j hj1 hj2

/-- C5: when normalization returns, its output has exactly one element per
sub-response in the same order, and an element whose sub-response is not a
key/value record, or whose status code reads outside [200, 400), is None. -/
theorem claim_C5_positional_normalization :
    ∀ (rs : List JValue) (out : List (Option Snapshot)), parse_all rs = .ok out →
      out.length = rs.length ∧
      ∀ (i : Nat) (h1 : i < rs.length) (h2 : i < out.length),
        ((rs.get ⟨i, h1⟩).isObjB = false ∨
          (∃ q : ℚ, statusCodeOf (rs.get ⟨i, h1⟩) = some q ∧ (q < 200 ∨ 400 ≤ q))) →
        out.get ⟨i, h2⟩ = none := by
  intro rs out h
  obtain ⟨hlen, hpt⟩ := parse_all_ok_pointwise rs out h
  refine ⟨hlen, ?_⟩
  intro i h1 h2 hbad
  have hone := hpt i h1 h2
  have : parse_series_major_single_points (rs.get ⟨i, h1⟩) = .ok none := by
    rcases hbad with hno | ⟨q, hq, hout⟩
    · exact parse_one_of_not_mapping _ hno
    · cases hr : rs.get ⟨i, h1⟩ with
      | obj fields =>
        rw [hr] at hq
        simp only [statusCodeOf] at hq
        cases hsc : getStatusCode fields with
        | ok q2 =>
          rw [hsc] at hq
          cases hq
          exact parse_one_of_bad_code fields q hsc hout
        | error e => rw [hsc] at hq; cases hq
      | _ => rw [hr] at hq; cases hq
  rw [this] at hone
  injection hone with h
  exact h.symm

/-- C5 witness: a two-element batch with a non-mapping entry and a 404 entry
keeps length and order and yields None in both slots. -/
theorem claim_C5_positional_normalization_witness :
    ([none, none] : List (Option Snapshot)).length =
      ([JValue.arr [], JValue.obj [("code", JValue.num 404)]] : List JValue).length ∧
    ([none, none] : List (Option Snapshot)).get ⟨0, by decide⟩ = none ∧
    ([none, none] : List (Option Snapshot)).get ⟨1, by decide⟩ = none := by
  have h := claim_C5_positional_normalization
    [JValue.arr [], JValue.obj [("code", JValue.num 404)]] [none, none] rfl
  refine ⟨h.1, ?_, ?_⟩
  · exact h.2 0 (by decide) (by decide) (Or.inl rfl)
  · exact h.2 1 (by decide) (by decide) (Or.inr ⟨404, rfl, by norm_num⟩)

/-- Helper for C2: entries whose point lists are present and empty are all
skipped, leaving the accumulator unchanged. -/
theorem processParams_all_points_empty :
    ∀ (l : List JValue) (acc : Snapshot),
      (∀ p ∈ l, ∃ pf, p = JValue.obj pf ∧ jlookup pf "points" = some (.arr [])) →
      processParams l acc = .ok acc := by
  intro l
  induction l with
  | nil => intro acc _; rfl
  | cons p l ih =>
    intro acc hall
    obtain ⟨pf, hp, hpts⟩ := hall p (by simp)
    subst hp
    simp only [processParams, hpts, pyLen]
    simpa using ih acc (fun x hx => hall x (by simp [hx]))

/-- Helper for C2: an empty latest array is falsy, so the field selection
falls through to info.aqi, and when that is missing or falsy too, nothing is
selected. -/
theorem pickParams_latest_empty (bodyFields : List (String × JValue))
    (hlatest : jlookup bodyFields "latest" = some (.arr []))
    (hinfo : ∀ v, jlookup bodyFields "info.aqi" = some v → v.truthy = false) :
    pickParams bodyFields = none := by
  simp only [pickParams, hlatest]
  rw [if_neg (by simp [JValue.truthy])]
  cases hia : jlookup bodyFields "info.aqi" with
  | none => rfl
  | some v => simp [hinfo v hia]

/-- Helper for C2: a nonempty latest array is truthy and is selected. -/
theorem pickParams_latest_nonempty (bodyFields : List (String × JValue))
    (l : List JValue) (hl : l ≠ [])
    (hlatest : jlookup bodyFields "latest" = some (.arr l)) :
    pickParams bodyFields = some (.arr l) := by
  simp only [pickParams, hlatest]
  rw [if_pos (by simp [JValue.truthy, List.isEmpty_iff, hl])]

/-- C2 counterexample: a sub-response whose decoded body has latest present
but empty normalizes to None, not to an empty mapping: the empty list is
falsy, so the source falls through to the absent info.aqi field and returns
None. -/
theorem claim_C2_counterexample_empty_latest_is_absent :
    json_loads "\x7b\"latest\":[]\x7d" = some (.obj [("latest", .arr [])]) ∧
    parse_series_major_single_points
        (.obj [("code", .num 200), ("body", .str "\x7b\"latest\":[]\x7d")]) = .ok none := by
  exact ⟨rfl, rfl⟩

/-- C2 amended: under an in-range status code and a decoded body whose latest
field is present, a present-but-empty latest array falls through to info.aqi
and, when that is missing or falsy, the element is None; a nonempty latest
array all of whose entries carry empty point lists yields the empty mapping. -/
theorem claim_C2_empty_latest_behaviour :
    ∀ (fields bodyFields : List (String × JValue)) (bodyStr : String)
      (l : List JValue) (q : ℚ),
      getStatusCode fields = .ok q → ¬(q < 200 ∨ 400 ≤ q) →
      jlookup fields "body" = some (.str bodyStr) →
      json_loads bodyStr = some (.obj bodyFields) →
      jlookup bodyFields "latest" = some (.arr l) →
      ((l = [] → (∀ v, jlookup bodyFields "info.aqi" = some v → v.truthy = false) →
          parse_series_major_single_points (.obj fields) = .ok none) ∧
       (l ≠ [] → (∀ p ∈ l, ∃ pf, p = JValue.obj pf ∧ jlookup pf "points" = some (.arr [])) →
          parse_series_major_single_points (.obj fields) = .ok (some []))) := by
  intro fields bodyFields bodyStr l q hq hgood hbody hjson hlatest
  constructor
  · intro hl hinfo
    subst hl
    simp only [parse_series_major_single_points, hq, if_neg hgood, hbody, hjson,
      pickParams_latest_empty bodyFields hlatest hinfo]
  · intro hl hall
    simp only [parse_series_major_single_points, hq, if_neg hgood, hbody, hjson,
      pickParams_latest_nonempty bodyFields l hl hlatest,
      processParams_all_points_empty l [] hall]

/-- C2 witness: a nonempty latest array whose single entry has an empty point
list yields the empty mapping. -/
theorem claim_C2_empty_latest_behaviour_witness :
    parse_series_major_single_points
        (.obj [("code", .num 200),
               ("body", .str "\x7b\"latest\":[\x7b\"points\":[]\x7d]\x7d")]) =
      .ok (some []) := by
  refine (claim_C2_empty_latest_behaviour
    [("code", .num 200), ("body", .str "\x7b\"latest\":[\x7b\"points\":[]\x7d]\x7d")]
    [("latest", .arr [.obj [("points", .arr [])]])]
    "\x7b\"latest\":[\x7b\"points\":[]\x7d]\x7d"
    [.obj [("points", .arr [])]] 200
    rfl (by norm_num) rfl rfl rfl).2 (by simp) ?_
  intro p hp
  simp only [List.mem_singleton] at hp
  exact ⟨[("points", .arr [])], hp, rfl⟩

/- ===== C3: declarative characterization of the validator ===== -/

/-- Every character is a lowercase hex digit. -/
def HexList (cs : List Char) : Prop := ∀ c ∈ cs, isLowerHexDigit c = true

/-- An optional canonical hyphen. -/
def optHyphen (b : Bool) : List Char := if b then ['-'] else []

/-- The canonical 8-4-4-4-12 hex grouping with each hyphen independently
present or omitted. -/
def GroupedHexId (id : List Char) : Prop :=
  ∃ (g1 g2 g3 g4 g5 : List Char) (b1 b2 b3 b4 : Bool),
    id = g1 ++ optHyphen b1 ++ g2 ++ optHyphen b2 ++ g3 ++ optHyphen b3 ++
         g4 ++ optHyphen b4 ++ g5 ∧
    g1.length = 8 ∧ g2.length = 4 ∧ g3.length = 4 ∧ g4.length = 4 ∧ g5.length = 12 ∧
    HexList g1 ∧ HexList g2 ∧ HexList g3 ∧ HexList g4 ∧ HexList g5

/-- The accepted device family segments, singular and plural. -/
def DeviceTypeSeg (dev : List Char) : Prop :=
  dev = "laseregg".data ∨ dev = "lasereggs".data ∨
  dev = "sensedge".data ∨ dev = "sensedges".data

/-- What the validator actually accepts, stated declaratively: the lowercased
input decomposes into an optional leading slash, a device family segment, a
slash, a device id in one of the two hex shapes, and an arbitrary tail, since
the regex is anchored at the start only. -/
def ValidSensorIdShape (sid : String) : Prop :=
  ∃ (pre dev id rest : List Char),
    sid.data.map Char.toLower = pre ++ dev ++ '/' :: id ++ rest ∧
    (pre = [] ∨ pre = ['/']) ∧ DeviceTypeSeg dev ∧
    ((id.length = 32 ∧ HexList id) ∨ GroupedHexId id)

theorem stripLit_eq_some :
    ∀ (ls cs rest : List Char), stripLit ls cs = some rest → cs = ls ++ rest := by
  intro ls
  induction ls with
  | nil => intro cs rest h; cases h; rfl
  | cons l ls ih =>
    intro cs rest h
    cases cs with
    | nil => cases h
    | cons c cs =>
      simp only [stripLit] at h
      by_cases hc : c = l
      · rw [if_pos hc] at h
        rw [hc, ih cs rest h]
        rfl
      · rw [if_neg hc] at h; cases h

theorem stripLit_append :
    ∀ (ls rest : List Char), stripLit ls (ls ++ rest) = some rest := by
  intro ls
  induction ls with
  | nil => intro rest; rfl
  | cons l ls ih => intro rest; simp [stripLit, ih]

theorem takeHex_eq_some :
    ∀ (n : Nat) (cs rest : List Char), takeHex n cs = some rest →
      ∃ pre, cs = pre ++ rest ∧ pre.length = n ∧ HexList pre := by
  intro n
  induction n with
  | zero =>
    intro cs rest h
    cases h
    exact ⟨[], rfl, rfl, by intro c hc; cases hc⟩
  | succ m ih =>
    intro cs rest h
    cases cs with
    | nil => cases h
    | cons c cs =>
      simp only [takeHex] at h
      by_cases hc : isLowerHexDigit c = true
      · rw [if_pos hc] at h
        obtain ⟨pre, hcs, hlen, hhex⟩ := ih cs rest h
        refine ⟨c :: pre, by rw [hcs]; rfl, by simp [hlen], ?_⟩
        intro x hx
        rcases List.mem_cons.mp hx with hx | hx
        · rw [hx]; exact hc
        · exact hhex x hx
      · rw [if_neg hc] at h; cases h

theorem takeHex_append :
    ∀ (n : Nat) (pre rest : List Char), pre.length = n → HexList pre →
      takeHex n (pre ++ rest) = some rest := by
  intro n
  induction n with
  | zero =>
    intro pre rest hlen _
    rw [List.length_eq_zero.mp hlen]
    rfl
  | succ m ih =>
    intro pre rest hlen hhex
    cases pre with
    | nil => cases hlen
    | cons c pre =>
      have hc : isLowerHexDigit c = true := hhex c (by simp)
      simp only [List.cons_append, takeHex, if_pos hc]
      exact ih pre rest (by simpa using hlen) (fun x hx => hhex x (by simp [hx]))

theorem skipHyphen_decomp :
    ∀ cs : List Char, ∃ b, cs = optHyphen b ++ skipHyphen cs := by
  intro cs
  cases cs with
  | nil => exact ⟨false, rfl⟩
  | cons c cs =>
    by_cases hc : c = '-'
    · exact ⟨true, by simp [skipHyphen, optHyphen, if_pos hc, hc]⟩
    · exact ⟨false, by simp [skipHyphen, optHyphen, if_neg hc]⟩

theorem skipHyphen_opt (b : Bool) (c : Char) (t x : List Char) (hc : c ≠ '-') :
    skipHyphen (optHyphen b ++ ((c :: t) ++ x)) = (c :: t) ++ x := by
  cases b with
  | true => rfl
  | false =>
    show skipHyphen (c :: (t ++ x)) = c :: (t ++ x)
    simp [skipHyphen, if_neg hc]

theorem hex_ne_hyphen (c : Char) (h : isLowerHexDigit c = true) : c ≠ '-' := by
  intro he
  rw [he] at h
  simp [isLowerHexDigit] at h

theorem slashAfterOptS_eq_some :
    ∀ (cs rest : List Char), slashAfterOptS cs = some rest →
      cs = 's' :: '/' :: rest ∨ cs = '/' :: rest := by
  intro cs rest h
  unfold slashAfterOptS at h
  split at h
  · injection h with h
    subst h
    exact Or.inl rfl
  · injection h with h
    subst h
    exact Or.inr rfl
  · cases h

theorem matchDeviceSlash_eq_some :
    ∀ (cs rest : List Char), matchDeviceSlash cs = some rest →
      ∃ dev, DeviceTypeSeg dev ∧ cs = dev ++ '/' :: rest := by
  intro cs rest h
  simp only [matchDeviceSlash] at h
  cases h1 : stripLit "laseregg".data cs with
  | some r =>
    rw [h1] at h
    have hcs := stripLit_eq_some _ _ _ h1
    rcases slashAfterOptS_eq_some r rest h with hr | hr
    · refine ⟨"lasereggs".data, Or.inr (Or.inl rfl), ?_⟩
      rw [hcs, hr]; rfl
    · refine ⟨"laseregg".data, Or.inl rfl, ?_⟩
      rw [hcs, hr]
  | none =>
    rw [h1] at h
    cases h2 : stripLit "sensedge".data cs with
    | some r =>
      rw [h2] at h
      have hcs := stripLit_eq_some _ _ _ h2
      rcases slashAfterOptS_eq_some r rest h with hr | hr
      · refine ⟨"sensedges".data, Or.inr (Or.inr (Or.inr rfl)), ?_⟩
        rw [hcs, hr]; rfl
      · refine ⟨"sensedge".data, Or.inr (Or.inr (Or.inl rfl)), ?_⟩
        rw [hcs, hr]
    | none => rw [h2] at h; cases h

theorem matchDeviceSlash_append :
    ∀ (dev : List Char), DeviceTypeSeg dev → ∀ rest : List Char,
      matchDeviceSlash (dev ++ '/' :: rest) = some rest := by
  intro dev hdev rest
  rcases hdev with h | h | h | h <;> subst h
  · have : ("laseregg".data : List Char) ++ '/' :: rest =
        "laseregg".data ++ ('/' :: rest) := rfl
    simp only [matchDeviceSlash, stripLit_append]
    rfl
  · have : ("lasereggs".data : List Char) ++ '/' :: rest =
        "laseregg".data ++ ('s' :: '/' :: rest) := rfl
    rw [this]
    simp only [matchDeviceSlash, stripLit_append]
    rfl
  · simp only [matchDeviceSlash]
    have hnone : stripLit "laseregg".data ("sensedge".data ++ '/' :: rest) = none := rfl
    rw [hnone, stripLit_append]
    rfl
  · simp only [matchDeviceSlash]
    have hnone : stripLit "laseregg".data ("sensedges".data ++ '/' :: rest) = none := rfl
    rw [hnone]
    have : ("sensedges".data : List Char) ++ '/' :: rest =
        "sensedge".data ++ ('s' :: '/' :: rest) := rfl
    rw [this, stripLit_append]
    rfl

theorem matchGroupedHex_eq_true :
    ∀ cs : List Char, matchGroupedHex cs = true →
      ∃ id rest, cs = id ++ rest ∧ GroupedHexId id := by
  intro cs h
  simp only [matchGroupedHex, Option.isSome_iff_exists, bind, Option.bind_eq_some] at h
  obtain ⟨_, cs1, h1, cs2, h2, cs3, h3, cs4, h4, cs5, h5, _⟩ := h
  obtain ⟨g1, e1, l1, x1⟩ := takeHex_eq_some _ _ _ h1
  obtain ⟨b1, hb1⟩ := skipHyphen_decomp cs1
  obtain ⟨g2, e2, l2, x2⟩ := takeHex_eq_some _ _ _ h2
  obtain ⟨b2, hb2⟩ := skipHyphen_decomp cs2
  obtain ⟨g3, e3, l3, x3⟩ := takeHex_eq_some _ _ _ h3
  obtain ⟨b3, hb3⟩ := skipHyphen_decomp cs3
  obtain ⟨g4, e4, l4, x4⟩ := takeHex_eq_some _ _ _ h4
  obtain ⟨b4, hb4⟩ := skipHyphen_decomp cs4
  obtain ⟨g5, e5, l5, x5⟩ := takeHex_eq_some _ _ _ h5
  refine ⟨g1 ++ optHyphen b1 ++ g2 ++ optHyphen b2 ++ g3 ++ optHyphen b3 ++
      g4 ++ optHyphen b4 ++ g5, cs5, ?_,
      g1, g2, g3, g4, g5, b1, b2, b3, b4, rfl, l1, l2, l3, l4, l5, x1, x2, x3, x4, x5⟩
  rw [e1, hb1, e2, hb2, e3, hb3, e4, hb4, e5]
  simp [List.append_assoc]

theorem matchGroupedHex_of_spec :
    ∀ (id rest : List Char), GroupedHexId id → matchGroupedHex (id ++ rest) = true := by
  intro id rest hid
  obtain ⟨g1, g2, g3, g4, g5, b1, b2, b3, b4, hdec, l1, l2, l3, l4, l5,
    x1, x2, x3, x4, x5⟩ := hid
  subst hdec
  cases g2 with
  | nil => cases l2
  | cons c2 g2t =>
  cases g3 with
  | nil => cases l3
  | cons c3 g3t =>
  cases g4 with
  | nil => cases l4
  | cons c4 g4t =>
  cases g5 with
  | nil => cases l5
  | cons c5 g5t =>
  have hc2 : c2 ≠ '-' := hex_ne_hyphen c2 (x2 c2 (by simp))
  have hc3 : c3 ≠ '-' := hex_ne_hyphen c3 (x3 c3 (by simp))
  have hc4 : c4 ≠ '-' := hex_ne_hyphen c4 (x4 c4 (by simp))
  have hc5 : c5 ≠ '-' := hex_ne_hyphen c5 (x5 c5 (by simp))
  have e0 : (g1 ++ optHyphen b1 ++ (c2 :: g2t) ++ optHyphen b2 ++ (c3 :: g3t) ++
        optHyphen b3 ++ (c4 :: g4t) ++ optHyphen b4 ++ (c5 :: g5t)) ++ rest =
      g1 ++ (optHyphen b1 ++ ((c2 :: g2t) ++ (optHyphen b2 ++ ((c3 :: g3t) ++
        (optHyphen b3 ++ ((c4 :: g4t) ++ (optHyphen b4 ++ ((c5 :: g5t) ++ rest)))))))) := by
    simp [List.append_assoc]
  simp only [matchGroupedHex, bind, e0]
  rw [takeHex_append 8 g1 _ l1 x1]
  simp only [Option.some_bind]
  rw [skipHyphen_opt b1 c2 g2t _ hc2]
  rw [takeHex_append 4 (c2 :: g2t) _ l2 x2]
  simp only [Option.some_bind]
  rw [skipHyphen_opt b2 c3 g3t _ hc3]
  rw [takeHex_append 4 (c3 :: g3t) _ l3 x3]
  simp only [Option.some_bind]
  rw [skipHyphen_opt b3 c4 g4t _ hc4]
  rw [takeHex_append 4 (c4 :: g4t) _ l4 x4]
  simp only [Option.some_bind]
  rw [skipHyphen_opt b4 c5 g5t _ hc5]
  rw [takeHex_append 12 (c5 :: g5t) _ l5 x5]
  rfl

theorem stripLeadSlash_decomp :
    ∀ cs : List Char, ∃ pre, (pre = [] ∨ pre = ['/']) ∧
      cs = pre ++ stripLeadSlash cs := by
  intro cs
  cases cs with
  | nil => exact ⟨[], Or.inl rfl, rfl⟩
  | cons c cs =>
    by_cases hc : c = '/'
    · exact ⟨['/'], Or.inr rfl, by simp [stripLeadSlash, if_pos hc, hc]⟩
    · exact ⟨[], Or.inl rfl, by simp [stripLeadSlash, if_neg hc]⟩

/-- C3 counterexample: the validator accepts an id followed by trailing
characters outside the pattern, because re.match anchors only at the start;
the claim says every string with trailing characters beyond the pattern is
rejected. -/
theorem claim_C3_counterexample_trailing_garbage_accepted :
    is_valid_sensor_id "/lasereggs/0000000000010001000000007e57c0dezzz" = true := by
  rfl

/-- C3 amended: the validator returns true exactly for the strings whose
lowercasing begins with an optional slash, a device family segment in
lasereggs, laseregg, sensedges, sensedge, a slash, and a device id that is 32
contiguous hex digits or the canonical 8-4-4-4-12 grouping with each hyphen
independently optional; arbitrary characters may follow the match, and every
string not of this shape is rejected. -/
theorem claim_C3_validator_characterization :
    ∀ sid : String, is_valid_sensor_id sid = true ↔ ValidSensorIdShape sid := by
  intro sid
  constructor
  · intro h
    simp only [is_valid_sensor_id] at h
    cases hm : matchDeviceSlash (stripLeadSlash (sid.data.map Char.toLower)) with
    | none => rw [hm] at h; cases h
    | some rest =>
      rw [hm] at h
      obtain ⟨dev, hdev, hsplit⟩ := matchDeviceSlash_eq_some _ _ hm
      obtain ⟨pre, hpre, hcs⟩ := stripLeadSlash_decomp (sid.data.map Char.toLower)
      simp only [matchHexId, Bool.or_eq_true, Option.isSome_iff_exists] at h
      rcases h with ⟨r2, hr2⟩ | hgr
      · obtain ⟨id, hrest, hlen, hhex⟩ := takeHex_eq_some _ _ _ hr2
        refine ⟨pre, dev, id, r2, ?_, hpre, hdev, Or.inl ⟨hlen, hhex⟩⟩
        rw [hcs, hsplit, hrest]
        simp
      · obtain ⟨id, r2, hrest, hid⟩ := matchGroupedHex_eq_true _ hgr
        refine ⟨pre, dev, id, r2, ?_, hpre, hdev, Or.inr hid⟩
        rw [hcs, hsplit, hrest]
        simp
  · intro h
    obtain ⟨pre, dev, id, rest, hdec, hpre, hdev, hid⟩ := h
    simp only [is_valid_sensor_id, hdec]
    have hstrip : stripLeadSlash (pre ++ dev ++ '/' :: id ++ rest) =
        dev ++ '/' :: (id ++ rest) := by
      rcases hpre with hp | hp <;> subst hp
      · simp only [List.nil_append]
        rcases hdev with h | h | h | h <;> subst h <;>
          simp [stripLeadSlash]
      · show stripLeadSlash ('/' :: (dev ++ '/' :: id ++ rest)) = dev ++ '/' :: (id ++ rest)
        simp [stripLeadSlash]
    rw [hstrip, matchDeviceSlash_append dev hdev]
    rcases hid with ⟨hlen, hhex⟩ | hgr
    · simp [matchHexId, takeHex_append 32 id rest hlen hhex]
    · simp [matchHexId, matchGroupedHex_of_spec id rest hgr]

/-- Helper: boolean evaluation of the hex-digit condition over a whole list. -/
theorem hexList_of_all (cs : List Char) (h : cs.all isLowerHexDigit = true) :
    HexList cs := by
  intro c hc
  exact List.all_eq_true.mp h c hc

/-- C3 witness for the characterization: a shaped decomposition exists for a
canonical id, and the validator indeed accepts it. -/
theorem claim_C3_validator_characterization_witness :
    is_valid_sensor_id "sensedge/00000000-0031-0001-0000-00007e57c0de" = true := by
  refine (claim_C3_validator_characterization _).mpr
    ⟨[], "sensedge".data,
     "00000000-0031-0001-0000-00007e57c0de".data, [], by decide,
     Or.inl rfl, Or.inr (Or.inr (Or.inl rfl)), Or.inr ?_⟩
  exact ⟨"00000000".data, "0031".data, "0001".data, "0000".data,
    "00007e57c0de".data, true, true, true, true, by decide, rfl, rfl, rfl, rfl, rfl,
    hexList_of_all _ (by decide), hexList_of_all _ (by decide),
    hexList_of_all _ (by decide), hexList_of_all _ (by decide),
    hexList_of_all _ (by decide)⟩

/- ===== C6: the accepted timestamp language ===== -/

/-- Two-digit zero-padded decimal rendering, for the canonical forms named by
the claim. -/
def pad2 (n : Nat) : List Char := [Nat.digitChar (n / 10), Nat.digitChar (n % 10)]

def pad4 (n : Nat) : List Char :=
  [Nat.digitChar (n / 1000), Nat.digitChar (n / 100 % 10),
   Nat.digitChar (n / 10 % 10), Nat.digitChar (n % 10)]

def pad6 (n : Nat) : List Char :=
  [Nat.digitChar (n / 100000), Nat.digitChar (n / 10000 % 10),
   Nat.digitChar (n / 1000 % 10), Nat.digitChar (n / 100 % 10),
   Nat.digitChar (n / 10 % 10), Nat.digitChar (n % 10)]

/-- The canonical form YYYY-MM-DDTHH:MM:SSZ. -/
def renderNoFrac (y mo d h mi s : Nat) : String :=
  ⟨pad4 y ++ '-' :: (pad2 mo ++ '-' :: (pad2 d ++ 'T' :: (pad2 h ++ ':' ::
    (pad2 mi ++ ':' :: (pad2 s ++ ['Z'])))))⟩

/-- The canonical form YYYY-MM-DDTHH:MM:SS.ffffffZ. -/
def renderWithFrac (y mo d h mi s us : Nat) : String :=
  ⟨pad4 y ++ '-' :: (pad2 mo ++ '-' :: (pad2 d ++ 'T' :: (pad2 h ++ ':' ::
    (pad2 mi ++ ':' :: (pad2 s ++ '.' :: (pad6 us ++ ['Z']))))))⟩

theorem digitChar_isDigit (k : Nat) (h : k ≤ 9) : (Nat.digitChar k).isDigit = true := by
  interval_cases k <;> decide

theorem digitVal_digitChar (k : Nat) (h : k ≤ 9) : digitVal (Nat.digitChar k) = k := by
  interval_cases k <;> decide

theorem readY_pad4 (y : Nat) (h : y ≤ 9999) (rest : List Char) :
    readY (pad4 y ++ rest) = some (y, rest) := by
  have h1 : y / 1000 ≤ 9 := by omega
  have h2 : y / 100 % 10 ≤ 9 := by omega
  have h3 : y / 10 % 10 ≤ 9 := by omega
  have h4 : y % 10 ≤ 9 := by omega
  simp only [pad4, List.cons_append, List.nil_append, readY,
    digitChar_isDigit _ h1, digitChar_isDigit _ h2, digitChar_isDigit _ h3,
    digitChar_isDigit _ h4, Bool.and_self, if_true,
    digitVal_digitChar _ h1, digitVal_digitChar _ h2, digitVal_digitChar _ h3,
    digitVal_digitChar _ h4, Option.some.injEq, Prod.mk.injEq]
  exact ⟨by omega, trivial⟩

theorem readMonth_pad2 (mo : Nat) (h1 : 1 ≤ mo) (h2 : mo ≤ 12) (rest : List Char) :
    readMonth (pad2 mo ++ rest) = some (mo, rest) := by
  interval_cases mo <;> rfl

theorem readDay_pad2 (d : Nat) (h1 : 1 ≤ d) (h2 : d ≤ 31) (rest : List Char) :
    readDay (pad2 d ++ rest) = some (d, rest) := by
  interval_cases d <;> rfl

theorem readHour_pad2 (h : Nat) (h2 : h ≤ 23) (rest : List Char) :
    readHour (pad2 h ++ rest) = some (h, rest) := by
  interval_cases h <;> rfl

theorem readMinute_pad2 (mi : Nat) (h2 : mi ≤ 59) (rest : List Char) :
    readMinute (pad2 mi ++ rest) = some (mi, rest) := by
  interval_cases mi <;> rfl

theorem readSecond_pad2 (s : Nat) (h2 : s ≤ 59) (rest : List Char) :
    readSecond (pad2 s ++ rest) = some (s, rest) := by
  interval_cases s <;> rfl

theorem daysInMonth_le_31 (y mo : Nat) : daysInMonth y mo ≤ 31 := by
  unfold daysInMonth
  split_ifs <;> omega

theorem readFrac_pad6 (us : Nat) (h : us ≤ 999999) (tail : List Char) :
    readFrac (pad6 us ++ 'Z' :: tail) = some (us, 'Z' :: tail) := by
  have h1 : us / 100000 ≤ 9 := by omega
  have h2 : us / 10000 % 10 ≤ 9 := by omega
  have h3 : us / 1000 % 10 ≤ 9 := by omega
  have h4 : us / 100 % 10 ≤ 9 := by omega
  have h5 : us / 10 % 10 ≤ 9 := by omega
  have h6 : us % 10 ≤ 9 := by omega
  have hz : ('Z').isDigit = false := rfl
  have ht : (pad6 us ++ 'Z' :: tail).takeWhile Char.isDigit = pad6 us := by
    simp [pad6, digitChar_isDigit _ h1, digitChar_isDigit _ h2, digitChar_isDigit _ h3,
      digitChar_isDigit _ h4, digitChar_isDigit _ h5, digitChar_isDigit _ h6, hz]
  simp only [readFrac, ht]
  simp only [pad6, List.length_cons, List.length_nil]
  norm_num
  simp only [digitVal_digitChar _ h1, digitVal_digitChar _ h2,
    digitVal_digitChar _ h3, digitVal_digitChar _ h4, digitVal_digitChar _ h5,
    digitVal_digitChar _ h6]
  omega

theorem mkPyDateTime_some (y mo d h mi s us : Nat) (h1 : 1 ≤ y) (h2 : y ≤ 9999)
    (h3 : 1 ≤ mo) (h4 : mo ≤ 12) (h5 : 1 ≤ d) (h6 : d ≤ daysInMonth y mo)
    (h7 : h ≤ 23) (h8 : mi ≤ 59) (h9 : s ≤ 59) (h10 : us ≤ 999999) :
    mkPyDateTime y mo d h mi s us = some ⟨y, mo, d, h, mi, s, us, true⟩ := by
  unfold mkPyDateTime
  rw [if_pos]
  simp only [Bool.and_eq_true, decide_eq_true_eq]
  omega

theorem litChar_self (c : Char) (x : List Char) : litChar c (c :: x) = some x := by
  simp [litChar]

theorem litCharCI_self (l c : Char) (hc : c.toLower = l) (x : List Char) :
    litCharCI l (c :: x) = some x := by
  simp [litCharCI, hc]

theorem litCharCI_ne (l c : Char) (hc : ¬ c.toLower = l) (x : List Char) :
    litCharCI l (c :: x) = none := by
  simp [litCharCI, hc]

theorem optBind_some {α β : Type} (a : α) (f : α → Option β) :
    (some a >>= f) = f a := rfl

theorem optBind_none {α β : Type} (f : α → Option β) :
    ((none : Option α) >>= f) = none := rfl

/-- The first canonical form is accepted with the given field values. -/
theorem strptimeNoFrac_canonical (y mo d h mi s : Nat)
    (hy1 : 1 ≤ y) (hy2 : y ≤ 9999) (hm1 : 1 ≤ mo) (hm2 : mo ≤ 12)
    (hd1 : 1 ≤ d) (hd2 : d ≤ daysInMonth y mo) (hh : h ≤ 23) (hmi : mi ≤ 59)
    (hs : s ≤ 59) :
    strptimeNoFrac (renderNoFrac y mo d h mi s).data =
      some ⟨y, mo, d, h, mi, s, 0, true⟩ := by
  have hd31 : d ≤ 31 := le_trans hd2 (daysInMonth_le_31 y mo)
  show strptimeNoFrac (pad4 y ++ '-' :: (pad2 mo ++ '-' :: (pad2 d ++ 'T' ::
    (pad2 h ++ ':' :: (pad2 mi ++ ':' :: (pad2 s ++ ['Z'])))))) = _
  unfold strptimeNoFrac
  simp only [readY_pad4 y hy2, optBind_some]
  simp only [litChar_self, optBind_some]
  simp only [readMonth_pad2 mo hm1 hm2, optBind_some]
  simp only [litChar_self, optBind_some]
  simp only [readDay_pad2 d hd1 hd31, optBind_some]
  simp only [litCharCI_self 't' 'T' rfl, optBind_some]
  simp only [readHour_pad2 h hh, optBind_some]
  simp only [litChar_self, optBind_some]
  simp only [readMinute_pad2 mi hmi, optBind_some]
  simp only [litChar_self, optBind_some]
  simp only [readSecond_pad2 s hs, optBind_some]
  simp only [litCharCI_self 'z' 'Z' rfl, optBind_some]
  exact mkPyDateTime_some y mo d h mi s 0 hy1 hy2 hm1 hm2 hd1 hd2 hh hmi hs (by norm_num)

/-- The plain format rejects the fractional rendering at the dot. -/
theorem strptimeNoFrac_frac_render (y mo d h mi s us : Nat)
    (hy2 : y ≤ 9999) (hm1 : 1 ≤ mo) (hm2 : mo ≤ 12)
    (hd1 : 1 ≤ d) (hd31 : d ≤ 31) (hh : h ≤ 23) (hmi : mi ≤ 59) (hs : s ≤ 59) :
    strptimeNoFrac (renderWithFrac y mo d h mi s us).data = none := by
  show strptimeNoFrac (pad4 y ++ '-' :: (pad2 mo ++ '-' :: (pad2 d ++ 'T' ::
    (pad2 h ++ ':' :: (pad2 mi ++ ':' :: (pad2 s ++ '.' :: (pad6 us ++ ['Z']))))))) = _
  unfold strptimeNoFrac
  simp only [readY_pad4 y hy2, optBind_some]
  simp only [litChar_self, optBind_some]
  simp only [readMonth_pad2 mo hm1 hm2, optBind_some]
  simp only [litChar_self, optBind_some]
  simp only [readDay_pad2 d hd1 hd31, optBind_some]
  simp only [litCharCI_self 't' 'T' rfl, optBind_some]
  simp only [readHour_pad2 h hh, optBind_some]
  simp only [litChar_self, optBind_some]
  simp only [readMinute_pad2 mi hmi, optBind_some]
  simp only [litChar_self, optBind_some]
  simp only [readSecond_pad2 s hs, optBind_some]
  simp only [litCharCI_ne 'z' '.' (by decide), optBind_none]

/-- The second canonical form is accepted with the given field values. -/
theorem strptimeWithFrac_canonical (y mo d h mi s us : Nat)
    (hy1 : 1 ≤ y) (hy2 : y ≤ 9999) (hm1 : 1 ≤ mo) (hm2 : mo ≤ 12)
    (hd1 : 1 ≤ d) (hd2 : d ≤ daysInMonth y mo) (hh : h ≤ 23) (hmi : mi ≤ 59)
    (hs : s ≤ 59) (hus : us ≤ 999999) :
    strptimeWithFrac (renderWithFrac y mo d h mi s us).data =
      some ⟨y, mo, d, h, mi, s, us, true⟩ := by
  have hd31 : d ≤ 31 := le_trans hd2 (daysInMonth_le_31 y mo)
  show strptimeWithFrac (pad4 y ++ '-' :: (pad2 mo ++ '-' :: (pad2 d ++ 'T' ::
    (pad2 h ++ ':' :: (pad2 mi ++ ':' :: (pad2 s ++ '.' :: (pad6 us ++ ['Z']))))))) = _
  unfold strptimeWithFrac
  simp only [readY_pad4 y hy2, optBind_some]
  simp only [litChar_self, optBind_some]
  simp only [readMonth_pad2 mo hm1 hm2, optBind_some]
  simp only [litChar_self, optBind_some]
  simp only [readDay_pad2 d hd1 hd31, optBind_some]
  simp only [litCharCI_self 't' 'T' rfl, optBind_some]
  simp only [readHour_pad2 h hh, optBind_some]
  simp only [litChar_self, optBind_some]
  simp only [readMinute_pad2 mi hmi, optBind_some]
  simp only [litChar_self, optBind_some]
  simp only [readSecond_pad2 s hs, optBind_some]
  simp only [litChar_self, optBind_some]
  simp only [readFrac_pad6 us hus, optBind_some]
  simp only [litCharCI_self 'z' 'Z' rfl, optBind_some]
  exact mkPyDateTime_some y mo d h mi s us hy1 hy2 hm1 hm2 hd1 hd2 hh hmi hs hus

theorem readY_suffix (cs : List Char) (v : Nat) (rest : List Char)
    (h : readY cs = some (v, rest)) : rest.IsSuffix cs := by
  unfold readY at h
  split at h
  · rename_i a b c d rest0
    split_ifs at h
    injection h with h
    cases h
    exact ⟨[a, b, c, d], rfl⟩
  · cases h

theorem read2or1_suffix (twoOk : Char → Char → Bool) (oneOk : Char → Bool)
    (cs : List Char) (v : Nat) (rest : List Char)
    (h : read2or1 twoOk oneOk cs = some (v, rest)) : rest.IsSuffix cs := by
  unfold read2or1 at h
  split at h
  · rename_i a b rest0
    split_ifs at h <;> (injection h with h; cases h)
    · exact ⟨[a, b], rfl⟩
    · exact ⟨[a], rfl⟩
  · rename_i a
    split_ifs at h
    injection h with h
    cases h
    exact ⟨[a], rfl⟩
  · cases h

theorem litChar_suffix (l : Char) (cs rest : List Char)
    (h : litChar l cs = some rest) : rest.IsSuffix cs := by
  unfold litChar at h
  split at h
  · rename_i c cs0
    split_ifs at h
    injection h with h
    cases h
    exact ⟨[c], rfl⟩
  · cases h

theorem litCharCI_inv (l : Char) (cs rest : List Char)
    (h : litCharCI l cs = some rest) : ∃ c, cs = c :: rest ∧ c.toLower = l := by
  unfold litCharCI at h
  split at h
  · rename_i c cs2
    split_ifs at h with hc
    injection h with h
    cases h
    exact ⟨c, rfl, hc⟩
  · cases h

theorem litCharCI_suffix (l : Char) (cs rest : List Char)
    (h : litCharCI l cs = some rest) : rest.IsSuffix cs := by
  obtain ⟨c, hc, _⟩ := litCharCI_inv l cs rest h
  rw [hc]
  exact ⟨[c], rfl⟩

theorem readFrac_suffix (cs : List Char) (v : Nat) (rest : List Char)
    (h : readFrac cs = some (v, rest)) : rest.IsSuffix cs := by
  simp only [readFrac] at h
  split_ifs at h
  injection h with h
  cases h
  exact List.drop_suffix _ _

theorem mkPyDateTime_inv (y mo d h mi s us : Nat) (dt : PyDateTime)
    (hmk : mkPyDateTime y mo d h mi s us = some dt) : dt.utc = true := by
  unfold mkPyDateTime at hmk
  split_ifs at hmk
  injection hmk with hmk
  rw [← hmk]

/-- Inversion for the plain format: a successful parse always sets UTC, and
the input always ends in a z or Z. -/
theorem strptimeNoFrac_inv (cs : List Char) (dt : PyDateTime)
    (h : strptimeNoFrac cs = some dt) :
    dt.utc = true ∧ ∃ pre zc, cs = pre ++ [zc] ∧ zc.toLower = 'z' := by
  unfold strptimeNoFrac at h
  obtain ⟨⟨y, cs1⟩, hy, h⟩ := Option.bind_eq_some.mp h
  obtain ⟨cs2, hl1, h⟩ := Option.bind_eq_some.mp h
  obtain ⟨⟨mo, cs3⟩, hmo, h⟩ := Option.bind_eq_some.mp h
  obtain ⟨cs4, hl2, h⟩ := Option.bind_eq_some.mp h
  obtain ⟨⟨d, cs5⟩, hd, h⟩ := Option.bind_eq_some.mp h
  obtain ⟨cs6, hl3, h⟩ := Option.bind_eq_some.mp h
  obtain ⟨⟨hh, cs7⟩, hhr, h⟩ := Option.bind_eq_some.mp h
  obtain ⟨cs8, hl4, h⟩ := Option.bind_eq_some.mp h
  obtain ⟨⟨mi, cs9⟩, hmi, h⟩ := Option.bind_eq_some.mp h
  obtain ⟨cs10, hl5, h⟩ := Option.bind_eq_some.mp h
  obtain ⟨⟨s, cs11⟩, hs, h⟩ := Option.bind_eq_some.mp h
  obtain ⟨cs12, hlz, h⟩ := Option.bind_eq_some.mp h
  cases cs12 with
  | cons c cs13 => simp at h
  | nil =>
    refine ⟨mkPyDateTime_inv _ _ _ _ _ _ _ _ h, ?_⟩
    obtain ⟨zc, hzc, hz⟩ := litCharCI_inv 'z' cs11 [] hlz
    have t1 : cs1.IsSuffix cs := readY_suffix _ _ _ hy
    have t2 : cs2.IsSuffix cs1 := litChar_suffix _ _ _ hl1
    have t3 : cs3.IsSuffix cs2 := read2or1_suffix _ _ _ _ _ hmo
    have t4 : cs4.IsSuffix cs3 := litChar_suffix _ _ _ hl2
    have t5 : cs5.IsSuffix cs4 := read2or1_suffix _ _ _ _ _ hd
    have t6 : cs6.IsSuffix cs5 := litCharCI_suffix _ _ _ hl3
    have t7 : cs7.IsSuffix cs6 := read2or1_suffix _ _ _ _ _ hhr
    have t8 : cs8.IsSuffix cs7 := litChar_suffix _ _ _ hl4
    have t9 : cs9.IsSuffix cs8 := read2or1_suffix _ _ _ _ _ hmi
    have t10 : cs10.IsSuffix cs9 := litChar_suffix _ _ _ hl5
    have t11 : cs11.IsSuffix cs10 := read2or1_suffix _ _ _ _ _ hs
    have hall : cs11.IsSuffix cs :=
      t11.trans (t10.trans (t9.trans (t8.trans (t7.trans (t6.trans
        (t5.trans (t4.trans (t3.trans (t2.trans t1)))))))))
    rw [hzc] at hall
    obtain ⟨pre, hpre⟩ := hall
    exact ⟨pre, zc, hpre.symm, hz⟩

/-- Inversion for the fractional format: same conclusions. -/
theorem strptimeWithFrac_inv (cs : List Char) (dt : PyDateTime)
    (h : strptimeWithFrac cs = some dt) :
    dt.utc = true ∧ ∃ pre zc, cs = pre ++ [zc] ∧ zc.toLower = 'z' := by
  unfold strptimeWithFrac at h
  obtain ⟨⟨y, cs1⟩, hy, h⟩ := Option.bind_eq_some.mp h
  obtain ⟨cs2, hl1, h⟩ := Option.bind_eq_some.mp h
  obtain ⟨⟨mo, cs3⟩, hmo, h⟩ := Option.bind_eq_some.mp h
  obtain ⟨cs4, hl2, h⟩ := Option.bind_eq_some.mp h
  obtain ⟨⟨d, cs5⟩, hd, h⟩ := Option.bind_eq_some.mp h
  obtain ⟨cs6, hl3, h⟩ := Option.bind_eq_some.mp h
  obtain ⟨⟨hh, cs7⟩, hhr, h⟩ := Option.bind_eq_some.mp h
  obtain ⟨cs8, hl4, h⟩ := Option.bind_eq_some.mp h
  obtain ⟨⟨mi, cs9⟩, hmi, h⟩ := Option.bind_eq_some.mp h
  obtain ⟨cs10, hl5, h⟩ := Option.bind_eq_some.mp h
  obtain ⟨⟨s, cs11⟩, hs, h⟩ := Option.bind_eq_some.mp h
  obtain ⟨cs12, hl6, h⟩ := Option.bind_eq_some.mp h
  obtain ⟨⟨us, cs13⟩, hf, h⟩ := Option.bind_eq_some.mp h
  obtain ⟨cs14, hlz, h⟩ := Option.bind_eq_some.mp h
  cases cs14 with
  | cons c cs15 => simp at h
  | nil =>
    refine ⟨mkPyDateTime_inv _ _ _ _ _ _ _ _ h, ?_⟩
    obtain ⟨zc, hzc, hz⟩ := litCharCI_inv 'z' cs13 [] hlz
    have t1 : cs1.IsSuffix cs := readY_suffix _ _ _ hy
    have t2 : cs2.IsSuffix cs1 := litChar_suffix _ _ _ hl1
    have t3 : cs3.IsSuffix cs2 := read2or1_suffix _ _ _ _ _ hmo
    have t4 : cs4.IsSuffix cs3 := litChar_suffix _ _ _ hl2
    have t5 : cs5.IsSuffix cs4 := read2or1_suffix _ _ _ _ _ hd
    have t6 : cs6.IsSuffix cs5 := litCharCI_suffix _ _ _ hl3
    have t7 : cs7.IsSuffix cs6 := read2or1_suffix _ _ _ _ _ hhr
    have t8 : cs8.IsSuffix cs7 := litChar_suffix _ _ _ hl4
    have t9 : cs9.IsSuffix cs8 := read2or1_suffix _ _ _ _ _ hmi
    have t10 : cs10.IsSuffix cs9 := litChar_suffix _ _ _ hl5
    have t11 : cs11.IsSuffix cs10 := read2or1_suffix _ _ _ _ _ hs
    have t12 : cs12.IsSuffix cs11 := litChar_suffix _ _ _ hl6
    have t13 : cs13.IsSuffix cs12 := readFrac_suffix _ _ _ hf
    have hall : cs13.IsSuffix cs :=
      t13.trans (t12.trans (t11.trans (t10.trans (t9.trans (t8.trans (t7.trans
        (t6.trans (t5.trans (t4.trans (t3.trans (t2.trans t1)))))))))))
    rw [hzc] at hall
    obtain ⟨pre, hpre⟩ := hall
    exact ⟨pre, zc, hpre.symm, hz⟩

/-- C6 counterexample: the parser accepts an input that is in neither of the
two claimed textual forms: strptime field patterns allow one-digit month, day,
hour, minute and second, so 2019-7-2T6:5:3Z parses, while the claim says every
string other than the two fixed-width forms fails. -/
theorem claim_C6_counterexample_lenient_accepted :
    parse_rfc3339 "2019-7-2T6:5:3Z" =
      some ⟨2019, 7, 2, 6, 5, 3, 0, true⟩ := rfl

/-- C6 amended: the parser accepts both canonical fixed-width forms for every
calendar-valid field assignment, every successful parse carries the UTC
offset, and every accepted string ends in z or Z, so inputs with a missing Z
or an explicit numeric offset fail; beyond the canonical forms, strptime also
accepts lenient variants (one-digit fields, one-to-six fraction digits,
lowercase t and z). -/
theorem claim_C6_parser_properties :
    (∀ (ts : String) (dt : PyDateTime), parse_rfc3339 ts = some dt →
      dt.utc = true ∧ ∃ pre zc, ts.data = pre ++ [zc] ∧ zc.toLower = 'z') ∧
    (∀ y mo d h mi s : Nat, 1 ≤ y → y ≤ 9999 → 1 ≤ mo → mo ≤ 12 →
      1 ≤ d → d ≤ daysInMonth y mo → h ≤ 23 → mi ≤ 59 → s ≤ 59 →
      parse_rfc3339 (renderNoFrac y mo d h mi s) =
        some ⟨y, mo, d, h, mi, s, 0, true⟩) ∧
    (∀ y mo d h mi s us : Nat, 1 ≤ y → y ≤ 9999 → 1 ≤ mo → mo ≤ 12 →
      1 ≤ d → d ≤ daysInMonth y mo → h ≤ 23 → mi ≤ 59 → s ≤ 59 → us ≤ 999999 →
      parse_rfc3339 (renderWithFrac y mo d h mi s us) =
        some ⟨y, mo, d, h, mi, s, us, true⟩) := by
  refine ⟨?_, ?_, ?_⟩
  · intro ts dt h
    unfold parse_rfc3339 at h
    cases h1 : strptimeNoFrac ts.data with
    | some d2 =>
      rw [h1] at h
      injection h with h
      subst h
      exact strptimeNoFrac_inv _ _ h1
    | none =>
      rw [h1] at h
      exact strptimeWithFrac_inv _ _ h
  · intro y mo d h mi s hy1 hy2 hm1 hm2 hd1 hd2 hh hmi hs
    unfold parse_rfc3339
    rw [strptimeNoFrac_canonical y mo d h mi s hy1 hy2 hm1 hm2 hd1 hd2 hh hmi hs]
  · intro y mo d h mi s us hy1 hy2 hm1 hm2 hd1 hd2 hh hmi hs hus
    have hd31 : d ≤ 31 := le_trans hd2 (daysInMonth_le_31 y mo)
    unfold parse_rfc3339
    rw [strptimeNoFrac_frac_render y mo d h mi s us hy2 hm1 hm2 hd1 hd31 hh hmi hs]
    exact strptimeWithFrac_canonical y mo d h mi s us hy1 hy2 hm1 hm2 hd1 hd2 hh hmi hs hus

/-- C6 witness: both canonical forms at the timestamp used by the repository
test, and the UTC and z-ending conclusions at that input. -/
theorem claim_C6_parser_properties_witness :
    parse_rfc3339 (renderNoFrac 2019 7 3 9 48 33) =
      some ⟨2019, 7, 3, 9, 48, 33, 0, true⟩ ∧
    parse_rfc3339 (renderWithFrac 2019 7 3 9 48 33 123456) =
      some ⟨2019, 7, 3, 9, 48, 33, 123456, true⟩ ∧
    (⟨2019, 7, 3, 9, 48, 33, 0, true⟩ : PyDateTime).utc = true := by
  have h1 := claim_C6_parser_properties.2.1 2019 7 3 9 48 33
    (by norm_num) (by norm_num) (by norm_num) (by norm_num) (by norm_num)
    (by norm_num [daysInMonth]) (by norm_num) (by norm_num) (by norm_num)
  have h2 := claim_C6_parser_properties.2.2 2019 7 3 9 48 33 123456
    (by norm_num) (by norm_num) (by norm_num) (by norm_num) (by norm_num)
    (by norm_num [daysInMonth]) (by norm_num) (by norm_num) (by norm_num) (by norm_num)
  have h3 := (claim_C6_parser_properties.1 (renderNoFrac 2019 7 3 9 48 33)
    ⟨2019, 7, 3, 9, 48, 33, 0, true⟩ h1).1
  exact ⟨h1, h2, h3⟩

end Kaiterra
